import Mathlib

set_option linter.unusedVariables false

/-!
Shallow embedding of the Sming-LittleFS adapter layer:
  src/src/FileSystem.cpp, src/src/Error.cpp, src/src/include/LittleFS/FileSystem.h.

The storage engine (littlefs) is, per the specification, an external black box
consumed through a narrow contract.  It is modelled here as a small functional
fake engine (`Engine`) together with an explicit trace (`List ECall`) of the
engine entry points invoked by each adapter operation, so that statements of
the form "no engine mutation call is issued" can be expressed directly.

External IFS-framework items (error-code numeric values, attribute-tag numeric
values, open-flag bit positions, `getAttributeSize`, `isRootPath`, `checkStat`)
are not part of this repository; they are modelled from the spec with their
numeric identities chosen arbitrarily but distinct, which is all the adapter
code depends on.  C `const char*` paths are modelled as `String`, with the null
pointer identified with the empty string (the code itself maps null to `""`
via `path ?: ""`).
-/

namespace IFS
namespace LittleFS

/- Modelled from the spec: unified IFS error-code space (external IFS
library).  Numeric values are symbolic; the adapter relies only on the codes
being distinct negative integers, with `FS_OK = 0` for success. -/
def FS_OK : Int := 0

namespace Error

def NoPartition : Int := -1

def BadPartition : Int := -2

def NotMounted : Int := -3

def ReadOnly : Int := -4

def NotSupported : Int := -5

def OutOfFileDescs : Int := -6

def InvalidHandle : Int := -7

def FileNotOpen : Int := -8

def NotImplemented : Int := -9

def BadParam : Int := -10

def NoMem : Int := -11

def NoMoreFiles : Int := -12

def ReadFailure : Int := -13

def WriteFailure : Int := -14

def EraseFailure : Int := -15

def BadFileSystem : Int := -16

def NotFound : Int := -17

def Exists : Int := -18

def TooBig : Int := -19

def NoSpace : Int := -20

def NameTooLong : Int := -21

/-- Modelled from the spec: base used to fold engine-native (system) error
codes into the unified space, well below every named code. -/
def SysBase : Int := -1024

/-- Modelled from the spec: embed an engine error code into the unified error
space (negative codes are offset by `SysBase`, non-negative results pass
through unchanged). -/
def fromSystem (err : Int) : Int :=
  if err < 0 then SysBase + err else err

end Error

/-! littlefs native error codes (engine error space, `lfs.h`). -/

def LFS_ERR_OK : Int := 0

def LFS_ERR_IO : Int := -5

def LFS_ERR_CORRUPT : Int := -84

def LFS_ERR_NOENT : Int := -2

def LFS_ERR_EXIST : Int := -17

def LFS_ERR_NOTDIR : Int := -20

def LFS_ERR_ISDIR : Int := -21

def LFS_ERR_NOTEMPTY : Int := -39

def LFS_ERR_BADF : Int := -9

def LFS_ERR_FBIG : Int := -27

def LFS_ERR_INVAL : Int := -22

def LFS_ERR_NOSPC : Int := -28

def LFS_ERR_NOMEM : Int := -12

def LFS_ERR_NOATTR : Int := -61

def LFS_ERR_NAMETOOLONG : Int := -36

/-- Error translation from `Error.cpp`: the nine-entry
`LFS_ERROR_TRANSLATION_MAP` switch, with `Error::fromSystem` as the default
catch-all. -/
def translateLfsError (err : Int) : Int :=
  if err = LFS_ERR_IO then Error.ReadFailure
  else if err = LFS_ERR_CORRUPT then Error.BadFileSystem
  else if err = LFS_ERR_NOENT then Error.NotFound
  else if err = LFS_ERR_EXIST then Error.Exists
  else if err = LFS_ERR_FBIG then Error.TooBig
  else if err = LFS_ERR_BADF then Error.InvalidHandle
  else if err = LFS_ERR_INVAL then Error.BadParam
  else if err = LFS_ERR_NOSPC then Error.NoSpace
  else if err = LFS_ERR_NAMETOOLONG then Error.NameTooLong
  else Error.fromSystem err

/-! littlefs file-open flag values (`lfs.h`). -/

def LFS_O_RDONLY : Nat := 1

def LFS_O_WRONLY : Nat := 2

def LFS_O_CREAT : Nat := 0x0100

def LFS_O_TRUNC : Nat := 0x0400

def LFS_O_APPEND : Nat := 0x0800

/- Modelled from the spec: bit positions of the abstract IFS `OpenFlag`
bitset (external IFS library).  Only distinctness of the positions matters to
the adapter. -/
namespace OpenFlagBit

def append : Nat := 0

def truncate : Nat := 1

def create : Nat := 2

def read : Nat := 3

def write : Nat := 4

def noFollow : Nat := 5

end OpenFlagBit

/-- Clear one bit of a natural-number bitset (`BitSet::operator-=`). -/
def clearBit (n : Nat) (i : Nat) : Nat :=
  if n.testBit i then n ^^^ (2 ^ i) else n

/-- Set or clear one bit of a bitset (`BitSet::operator[]=`). -/
def assignBit (n : Nat) (i : Nat) (b : Bool) : Nat :=
  if b then clearBit n i ^^^ (2 ^ i) else clearBit n i

/-- State threaded through `mapFileOpenFlags`: the not-yet-consumed IFS flags
and the accumulated LFS flags. -/
structure FlagMapState where
  flags : Nat
  oflags : Nat
deriving DecidableEq

/-- One step of the `map` lambda inside `mapFileOpenFlags`: if the IFS flag
bit is present, consume it and accumulate the corresponding LFS flag. -/
def mapOne (flagBit : Nat) (oflag : Nat) (s : FlagMapState) : FlagMapState :=
  if s.flags.testBit flagBit then
    { flags := clearBit s.flags flagBit, oflags := s.oflags ||| oflag }
  else s

/-- Map IFS OpenFlags to LFS equivalents (`mapFileOpenFlags`); returns the
unrecognised residue (non-zero means failure) and the LFS open flags. -/
def mapFileOpenFlags (flags : Nat) : Nat × Nat :=
  let s0 : FlagMapState := { flags := flags, oflags := 0 }
  let s1 := mapOne OpenFlagBit.append LFS_O_APPEND s0
  let s2 := mapOne OpenFlagBit.truncate LFS_O_TRUNC s1
  let s3 := mapOne OpenFlagBit.create LFS_O_CREAT s2
  let s4 := mapOne OpenFlagBit.read LFS_O_RDONLY s3
  let s5 := mapOne OpenFlagBit.write LFS_O_WRONLY s4
  let rest := clearBit s5.flags OpenFlagBit.noFollow
  (rest, s5.oflags)

/- Modelled from the spec: numeric values of the IFS `AttributeTag`
enumeration (external IFS library).  Reserved (system) tags lie below `User`;
the adapter relies only on distinctness and on the `User` threshold. -/
namespace AttributeTag

def ModifiedTime : Nat := 0

def FileAttributes : Nat := 1

def ReadAce : Nat := 2

def WriteAce : Nat := 3

def Compression : Nat := 4

def User : Nat := 16

end AttributeTag

/-- Modelled from the spec: fixed sizes of the reserved attribute tags
(external IFS `getAttributeSize`); user tags report size 0 (caller-defined
size). -/
def getAttributeSize (tag : Nat) : Nat :=
  if tag = AttributeTag.ModifiedTime then 4
  else if tag = AttributeTag.FileAttributes then 1
  else if tag = AttributeTag.ReadAce then 1
  else if tag = AttributeTag.WriteAce then 1
  else if tag = AttributeTag.Compression then 8
  else 0

/- Modelled from the spec: bit positions of the IFS `FileAttribute` bitset
(external IFS library); only distinctness matters. -/
namespace FileAttrBit

def readOnly : Nat := 0

def directory : Nat := 1

def compressed : Nat := 2

end FileAttrBit

/-- Modelled from the spec: the root path is the empty string; a null C path
is identified with `""` (external IFS `isRootPath`). -/
def isRootPath (path : String) : Bool :=
  path = ""

/-- Bare-filename derivation used by `open`: the substring after the last
path separator (C `strrchr` on the slash character). -/
def baseName (path : String) : String :=
  (path.splitOn "/").getLastD ""

/-- Little-endian byte encoding of a 32-bit `TimeStamp` as stored in the
engine attribute store. -/
def encodeTime (t : Nat) : List Nat :=
  [t % 256, t / 256 % 256, t / 65536 % 256, t / 16777216 % 256]

/-- Decode a stored `TimeStamp` attribute blob. -/
def decodeTime (b : List Nat) : Nat :=
  b.getD 0 0 + 256 * b.getD 1 0 + 65536 * b.getD 2 0 + 16777216 * b.getD 3 0

/-! Fake storage engine.  Modelled from the spec: the engine is a black box
consumed through mount/format, file open/close/write/sync, path- and
handle-scoped attribute get/set/remove, and mkdir/rename/remove, all returning
littlefs error codes.  Attribute blobs are byte lists keyed by (path, tag);
an engine file handle is identified with the path it was opened on.  File
contents are not modelled: no claim observes them. -/

/-- Attribute lookup in the keyed-blob store of the fake engine. -/
def lookupAttr : List ((String × Nat) × List Nat) → String → Nat → Option (List Nat)
  | [], _, _ => none
  | kv :: rest, p, t =>
    if kv.1.1 = p ∧ kv.1.2 = t then some kv.2 else lookupAttr rest p t

/-- Remove one key from the attribute store of the fake engine. -/
def eraseAttr : List ((String × Nat) × List Nat) → String → Nat → List ((String × Nat) × List Nat)
  | [], _, _ => []
  | kv :: rest, p, t =>
    if kv.1.1 = p ∧ kv.1.2 = t then eraseAttr rest p t else kv :: eraseAttr rest p t

/-- Fake engine state: mountability, the set of existing files and
directories, and the attribute store. -/
structure Engine where
  mountable : Bool := true
  files : List String := []
  dirs : List String := []
  attrs : List ((String × Nat) × List Nat) := []
deriving DecidableEq

/-- Engine entry-point trace events recorded by the adapter, one per engine
call site in `FileSystem.cpp`. -/
inductive ECall where
  | mount
  | getattr (path : String) (tag : Nat)
  | setattr (path : String) (tag : Nat)
  | removeattr (path : String) (tag : Nat)
  | fileOpen (path : String) (oflags : Nat)
  | fileClose (h : String)
  | fileSync (h : String)
  | fileWrite (h : String) (size : Nat)
  | fileTruncate (h : String) (size : Nat)
  | fileSetattr (h : String) (tag : Nat)
  | fileGetattr (h : String) (tag : Nat)
  | fileRemoveattr (h : String) (tag : Nat)
  | stat (path : String)
  | mkdir (path : String)
  | rename (oldpath newpath : String)
  | remove (path : String)
deriving DecidableEq

/-- Does the engine hold an entry at this path?  The root `""` always
exists. -/
def Engine.hasEntry (e : Engine) (path : String) : Bool :=
  path = "" || e.dirs.contains path || e.files.contains path

/-- Engine `lfs_getattr` / `lfs_file_getattr`: returns the stored attribute
size and the blob truncated to the buffer size, `LFS_ERR_NOATTR` when absent,
`LFS_ERR_NOENT` when the path does not exist. -/
def Engine.getattr (e : Engine) (path : String) (tag : Nat) (size : Nat) : Int × List Nat :=
  if e.hasEntry path = false then (LFS_ERR_NOENT, [])
  else
    match lookupAttr e.attrs path tag with
    | some b => (Int.ofNat b.length, b.take size)
    | none => (LFS_ERR_NOATTR, [])

/-- Engine `lfs_setattr` / `lfs_file_setattr`: stores `size` bytes of the
blob on an existing entry. -/
def Engine.setattr (e : Engine) (path : String) (tag : Nat) (data : List Nat) (size : Nat) :
    Int × Engine :=
  if e.hasEntry path = false then (LFS_ERR_NOENT, e)
  else (LFS_ERR_OK, { e with attrs := ((path, tag), data.take size) :: eraseAttr e.attrs path tag })

/-- Engine `lfs_removeattr` / `lfs_file_removeattr`. -/
def Engine.removeattr (e : Engine) (path : String) (tag : Nat) : Int × Engine :=
  if e.hasEntry path = false then (LFS_ERR_NOENT, e)
  else (LFS_ERR_OK, { e with attrs := eraseAttr e.attrs path tag })

/-- Engine `lfs_file_opencfg`: open an existing file, create it when
`LFS_O_CREAT` is given, `LFS_ERR_ISDIR` on a directory, `LFS_ERR_NOENT`
otherwise.  The returned handle is the path itself. -/
def Engine.fileOpen (e : Engine) (path : String) (oflags : Nat) : Int × Engine × String :=
  if e.files.contains path then (LFS_ERR_OK, e, path)
  else if path = "" || e.dirs.contains path then (LFS_ERR_ISDIR, e, path)
  else if oflags.testBit 8 then (LFS_ERR_OK, { e with files := path :: e.files }, path)
  else (LFS_ERR_NOENT, e, path)

/-- Engine `lfs_file_close`: always succeeds in the fake engine. -/
def Engine.fileClose (e : Engine) (h : String) : Int × Engine :=
  (LFS_ERR_OK, e)

/-- Engine `lfs_file_sync`: always succeeds in the fake engine. -/
def Engine.fileSync (e : Engine) (h : String) : Int × Engine :=
  (LFS_ERR_OK, e)

/-- Engine `lfs_file_write`: reports `size` bytes written (contents are not
modelled). -/
def Engine.fileWrite (e : Engine) (h : String) (size : Nat) : Int × Engine :=
  (Int.ofNat size, e)

/-- Engine `lfs_file_truncate`: always succeeds in the fake engine. -/
def Engine.fileTruncate (e : Engine) (h : String) (size : Nat) : Int × Engine :=
  (LFS_ERR_OK, e)

/-- Engine `lfs_mount`: succeeds when the on-disk image is mountable. -/
def Engine.mount (e : Engine) : Int × Engine :=
  (if e.mountable then LFS_ERR_OK else LFS_ERR_CORRUPT, e)

/-- Engine `lfs_mkdir`: `LFS_ERR_EXIST` when the entry already exists,
otherwise creates the directory. -/
def Engine.mkdir (e : Engine) (path : String) : Int × Engine :=
  if e.dirs.contains path || e.files.contains path then (LFS_ERR_EXIST, e)
  else (LFS_ERR_OK, { e with dirs := path :: e.dirs })

/-- Engine `lfs_rename`: moves an entry and its attributes. -/
def Engine.rename (e : Engine) (oldpath newpath : String) : Int × Engine :=
  if e.hasEntry oldpath = false then (LFS_ERR_NOENT, e)
  else
    (LFS_ERR_OK,
      { e with
        files := e.files.erase oldpath ++ (if e.files.contains oldpath then [newpath] else []),
        dirs := (e.dirs.erase oldpath) ++ (if e.dirs.contains oldpath then [newpath] else []),
        attrs := e.attrs.map (fun kv => if kv.1.1 = oldpath then ((newpath, kv.1.2), kv.2) else kv) })

/-- Engine `lfs_remove`: deletes an existing entry and its attributes. -/
def Engine.remove (e : Engine) (path : String) : Int × Engine :=
  if e.files.contains path || e.dirs.contains path then
    (LFS_ERR_OK,
      { e with
        files := e.files.erase path,
        dirs := e.dirs.erase path,
        attrs := e.attrs.filter (fun kv => kv.1.1 != path) })
  else (LFS_ERR_NOENT, e)

/-- Engine `lfs_stat` result record (`lfs_info`). -/
structure LfsInfo where
  name : String := ""
  size : Nat := 0
  isDir : Bool := false
deriving DecidableEq

/-- Engine `lfs_stat` / `lfs_statcfg` entry lookup: the root reports name
`"/"` and directory type; file sizes are not modelled (0). -/
def Engine.statPath (e : Engine) (path : String) : Int × LfsInfo :=
  if path = "" then (LFS_ERR_OK, { name := "/", size := 0, isDir := true })
  else if e.dirs.contains path then (LFS_ERR_OK, { name := baseName path, size := 0, isDir := true })
  else if e.files.contains path then (LFS_ERR_OK, { name := baseName path, size := 0, isDir := false })
  else (LFS_ERR_NOENT, {})

/-! Adapter data model (`FileSystem.h`). -/

/-- Access-control pair (`ACL { readAccess, writeAccess }`); a `UserRole` is
one byte. -/
structure ACL where
  readAccess : Nat := 0
  writeAccess : Nat := 0
deriving DecidableEq

/-- Open-file descriptor (`struct FileDescriptor`): cached bare name, the
engine file handle, the cached mtime, and the three flags
{TimeChanged, IsRoot, Write} of its flag bitset. -/
structure FileDescriptor where
  name : String := ""
  file : String := ""
  mtime : Nat := 0
  timeChanged : Bool := false
  isRoot : Bool := false
  write : Bool := false
deriving DecidableEq

/-- Entry status record (`IFS::Stat`), as far as the adapter populates it. -/
structure Stat where
  name : String := ""
  size : Nat := 0
  mtime : Nat := 0
  acl : ACL := {}
  compression : Nat := 0
  attr : Nat := 0
deriving DecidableEq

/-- First free handle value (`LFS_HANDLE_MIN`). -/
def LFS_HANDLE_MIN : Int := 200

/-- Number of descriptor slots (`LFS_MAX_FDS`). -/
def LFS_MAX_FDS : Nat := 5

/-- Largest valid handle value (`LFS_HANDLE_MAX = LFS_HANDLE_MIN + LFS_MAX_FDS - 1`). -/
def LFS_HANDLE_MAX : Int := LFS_HANDLE_MIN + Int.ofNat LFS_MAX_FDS - 1

/-- Adapter state (`class FileSystem`): the engine control block, the fixed
descriptor table, the cached root ACL and the mounted flag.  `timeNow` models
the ambient clock read by `fsGetTimeUTC()`. -/
structure FileSystem where
  engine : Engine := {}
  fileDescriptors : List (Option FileDescriptor) := [none, none, none, none, none]
  rootAcl : ACL := {}
  mounted : Bool := false
  timeNow : Nat := 0
deriving DecidableEq

/-- Result shape of a state-mutating adapter call: returned code, next
adapter state, trace of engine calls issued. -/
abbrev FsRes := Int × FileSystem × List ECall

/-- Handle validation (`GET_FD()` macro): mounted check, range check, then
slot lookup; yields the slot index and descriptor. -/
def FileSystem.getFd (fs : FileSystem) (file : Int) : Except Int (Nat × FileDescriptor) :=
  if fs.mounted = false then Except.error Error.NotMounted
  else if file < LFS_HANDLE_MIN ∨ LFS_HANDLE_MAX < file then Except.error Error.InvalidHandle
  else
    match fs.fileDescriptors.getD (file - LFS_HANDLE_MIN).toNat none with
    | none => Except.error Error.FileNotOpen
    | some fd => Except.ok ((file - LFS_HANDLE_MIN).toNat, fd)

/-- First free descriptor slot (the allocation scan in `open`). -/
def findFreeSlot : List (Option FileDescriptor) → Option Nat
  | [] => none
  | none :: _ => some 0
  | some _ :: rest => (findFreeSlot rest).map (· + 1)

/-- Helper for the `get_attr` template reading a one-byte bitset or role
attribute: on any engine failure the destination keeps its prior value (the
code ignores the returned error), and a stored blob shorter than the
destination leaves the remaining bytes untouched (memcpy of `min` size). -/
def getAttrByte (e : Engine) (path : String) (tag : Nat) (prior : Nat) : Nat :=
  if (e.getattr path tag 1).1 < 0 then prior else (e.getattr path tag 1).2.headD prior

/-- Helper for the `get_attr` template reading a `TimeStamp`: on failure the
destination keeps its prior value. -/
def getAttrTime (e : Engine) (path : String) (tag : Nat) (prior : Nat) : Nat :=
  if (e.getattr path tag 4).1 < 0 then prior else decodeTime (e.getattr path tag 4).2

/-- Root-ACL cache refresh (`FileSystem::checkRootAcl`): an ACE write updates
the corresponding cached half. -/
def checkRootAcl (acl : ACL) (tag : Nat) (value : List Nat) : ACL :=
  let acl1 :=
    if tag = AttributeTag.ReadAce then { acl with readAccess := value.headD acl.readAccess }
    else acl
  if tag = AttributeTag.WriteAce then { acl1 with writeAccess := value.headD acl1.writeAccess }
  else acl1

/-- Mount attempt (`FileSystem::tryMount`): engine mount, then load the root
ACL cache from the reserved attributes of the root path, then set `mounted`. -/
def FileSystem.tryMount (fs : FileSystem) : FsRes :=
  let r := fs.engine.mount
  if r.1 < 0 then (translateLfsError r.1, { fs with engine := r.2 }, [ECall.mount])
  else
    let e := r.2
    let acl1 : ACL := { fs.rootAcl with
      readAccess := getAttrByte e "" AttributeTag.ReadAce fs.rootAcl.readAccess }
    let acl2 : ACL := { acl1 with
      writeAccess := getAttrByte e "" AttributeTag.WriteAce acl1.writeAccess }
    (FS_OK, { fs with engine := e, rootAcl := acl2, mounted := true },
      [ECall.mount, ECall.getattr "" AttributeTag.ReadAce, ECall.getattr "" AttributeTag.WriteAce])

/-- File open (`FileSystem::open`): mounted check, read-only precheck for
write requests, flag mapping, slot allocation, engine open, mtime load, flag
and name population.  Returns the handle (or a negative error). -/
def FileSystem.openFile (fs : FileSystem) (path : String) (flags : Nat) : FsRes :=
  if fs.mounted = false then (Error.NotMounted, fs, [])
  else
    let preTrace : List ECall :=
      if flags.testBit OpenFlagBit.write then [ECall.getattr path AttributeTag.FileAttributes]
      else []
    let attr : Nat :=
      if flags.testBit OpenFlagBit.write then
        getAttrByte fs.engine path AttributeTag.FileAttributes 0
      else 0
    if attr.testBit FileAttrBit.readOnly then (Error.ReadOnly, fs, preTrace)
    else
      let m := mapFileOpenFlags flags
      if m.1 ≠ 0 then (Error.NotSupported, fs, preTrace)
      else
        match findFreeSlot fs.fileDescriptors with
        | none => (Error.OutOfFileDescs, fs, preTrace)
        | some i =>
          let r := fs.engine.fileOpen path m.2
          let trace1 := preTrace ++ [ECall.fileOpen path m.2]
          if r.1 < 0 then (translateLfsError r.1, { fs with engine := r.2.1 }, trace1)
          else
            let e1 := r.2.1
            let h := r.2.2
            let mt := getAttrTime e1 h AttributeTag.ModifiedTime 0
            let fd : FileDescriptor :=
              { name := baseName path, file := h, mtime := mt, timeChanged := false,
                isRoot := isRootPath path, write := flags.testBit OpenFlagBit.write }
            (LFS_HANDLE_MIN + Int.ofNat i,
              { fs with engine := e1, fileDescriptors := fs.fileDescriptors.set i (some fd) },
              trace1 ++ [ECall.fileGetattr h AttributeTag.ModifiedTime])

/-- Lazy metadata write-back (`FileSystem::flushMeta`): when TimeChanged is
set, clear it and write the cached mtime to the engine attribute store. -/
def flushMeta (fd : FileDescriptor) (e : Engine) : FileDescriptor × Engine × List ECall :=
  if fd.timeChanged then
    ({ fd with timeChanged := false },
      (e.setattr fd.file AttributeTag.ModifiedTime (encodeTime fd.mtime) 4).2,
      [ECall.fileSetattr fd.file AttributeTag.ModifiedTime])
  else (fd, e, [])

/-- File close (`FileSystem::close`): flush pending metadata, close the
engine handle, release the slot unconditionally. -/
def FileSystem.close (fs : FileSystem) (file : Int) : FsRes :=
  match fs.getFd file with
  | Except.error err => (err, fs, [])
  | Except.ok (i, fd) =>
    let fm := flushMeta fd fs.engine
    let r := fm.2.1.fileClose fm.1.file
    (translateLfsError r.1,
      { fs with engine := r.2, fileDescriptors := fs.fileDescriptors.set i none },
      fm.2.2 ++ [ECall.fileClose fm.1.file])

/-- Handle flush (`FileSystem::flush`): write-flag precheck (`CHECK_WRITE()`),
metadata flush, then engine sync. -/
def FileSystem.flush (fs : FileSystem) (file : Int) : FsRes :=
  match fs.getFd file with
  | Except.error err => (err, fs, [])
  | Except.ok (i, fd) =>
    if fd.write = false then (Error.ReadOnly, fs, [])
    else
      let fm := flushMeta fd fs.engine
      let r := fm.2.1.fileSync fm.1.file
      (translateLfsError r.1,
        { fs with engine := r.2, fileDescriptors := fs.fileDescriptors.set i (some fm.1) },
        fm.2.2 ++ [ECall.fileSync fm.1.file])

/-- File write (`FileSystem::write`): write-flag precheck, engine write, then
`fd->touch()` marks the cached mtime dirty. -/
def FileSystem.write (fs : FileSystem) (file : Int) (size : Nat) : FsRes :=
  match fs.getFd file with
  | Except.error err => (err, fs, [])
  | Except.ok (i, fd) =>
    if fd.write = false then (Error.ReadOnly, fs, [])
    else
      let r := fs.engine.fileWrite fd.file size
      if r.1 < 0 then (translateLfsError r.1, { fs with engine := r.2 }, [ECall.fileWrite fd.file size])
      else
        let fd1 := { fd with mtime := fs.timeNow, timeChanged := true }
        (r.1, { fs with engine := r.2, fileDescriptors := fs.fileDescriptors.set i (some fd1) },
          [ECall.fileWrite fd.file size])

/-- File truncation (`FileSystem::ftruncate`): write-flag precheck, then
engine truncate. -/
def FileSystem.ftruncate (fs : FileSystem) (file : Int) (newSize : Nat) : FsRes :=
  match fs.getFd file with
  | Except.error err => (err, fs, [])
  | Except.ok (i, fd) =>
    if fd.write = false then (Error.ReadOnly, fs, [])
    else
      let r := fs.engine.fileTruncate fd.file newSize
      (translateLfsError r.1, { fs with engine := r.2 }, [ECall.fileTruncate fd.file newSize])

/-- Handle-scoped attribute write (`FileSystem::fsetxattr`): write-flag
precheck; null data deletes (user tags only); reserved tags with a fixed size
demand an exact size match; the ModifiedTime tag is special-cased into the
cached descriptor mtime and TimeChanged flag without touching the engine;
otherwise the engine attribute store is written, refreshing the root-ACL
cache when the handle is the root. -/
def FileSystem.fsetxattr (fs : FileSystem) (file : Int) (tag : Nat)
    (data : Option (List Nat)) (size : Nat) : FsRes :=
  match fs.getFd file with
  | Except.error err => (err, fs, [])
  | Except.ok (i, fd) =>
    if fd.write = false then (Error.ReadOnly, fs, [])
    else
      match data with
      | none =>
        if tag < AttributeTag.User then (Error.NotSupported, fs, [])
        else
          let r := fs.engine.removeattr fd.file tag
          (translateLfsError r.1, { fs with engine := r.2 }, [ECall.fileRemoveattr fd.file tag])
      | some d =>
        let attrSize := getAttributeSize tag
        if attrSize ≠ 0 ∧ size ≠ attrSize then (Error.BadParam, fs, [])
        else if tag = AttributeTag.ModifiedTime then
          let fd1 := { fd with mtime := decodeTime (d.take attrSize), timeChanged := true }
          (FS_OK, { fs with fileDescriptors := fs.fileDescriptors.set i (some fd1) }, [])
        else
          let r := fs.engine.setattr fd.file tag d size
          let fs1 := { fs with engine := r.2 }
          let fs2 :=
            if 0 ≤ r.1 ∧ fd.isRoot then { fs1 with rootAcl := checkRootAcl fs1.rootAcl tag d }
            else fs1
          (translateLfsError r.1, fs2, [ECall.fileSetattr fd.file tag])

/-- Handle-scoped attribute read (`FileSystem::fgetxattr`): the ModifiedTime
tag reads the cached descriptor mtime without touching the engine; other
tags read the engine store directly.  Returns the result code and the bytes
delivered. -/
def FileSystem.fgetxattr (fs : FileSystem) (file : Int) (tag : Nat) (size : Nat) :
    Int × List Nat × List ECall :=
  match fs.getFd file with
  | Except.error err => (err, [], [])
  | Except.ok (_, fd) =>
    if tag = AttributeTag.ModifiedTime then
      (Int.ofNat 4, (encodeTime fd.mtime).take size, [])
    else
      let r := fs.engine.getattr fd.file tag size
      (r.1, r.2, [ECall.fileGetattr fd.file tag])

/-- Path-scoped attribute write (`FileSystem::setxattr`): null data deletes
(user tags only); reserved tags reject undersized writes; user tags beyond
255 are rejected; on engine success the root-ACL cache is refreshed
(unconditionally, for every path). -/
def FileSystem.setxattr (fs : FileSystem) (path : String) (tag : Nat)
    (data : Option (List Nat)) (size : Nat) : FsRes :=
  if fs.mounted = false then (Error.NotMounted, fs, [])
  else
    match data with
    | none =>
      if tag < AttributeTag.User then (Error.NotSupported, fs, [])
      else
        let r := fs.engine.removeattr path tag
        (translateLfsError r.1, { fs with engine := r.2 }, [ECall.removeattr path tag])
    | some d =>
      if tag < AttributeTag.User ∧ size < getAttributeSize tag then (Error.BadParam, fs, [])
      else if ¬tag < AttributeTag.User ∧ 255 < tag then (Error.BadParam, fs, [])
      else
        let r := fs.engine.setattr path tag d size
        let fs1 := { fs with engine := r.2 }
        let fs2 := if 0 ≤ r.1 then { fs1 with rootAcl := checkRootAcl fs1.rootAcl tag d } else fs1
        (translateLfsError r.1, fs2, [ECall.setattr path tag])

/-- Path-scoped attribute read (`FileSystem::getxattr`): an undersized buffer
for a reserved tag reports the required size without touching the engine;
user tags beyond 255 are rejected; otherwise the engine store is read. -/
def FileSystem.getxattr (fs : FileSystem) (path : String) (tag : Nat) (size : Nat) :
    Int × List Nat × List ECall :=
  if fs.mounted = false then (Error.NotMounted, [], [])
  else if tag < AttributeTag.User ∧ size < getAttributeSize tag then
    (Int.ofNat (getAttributeSize tag), [], [])
  else if ¬tag < AttributeTag.User ∧ 255 < tag then (Error.BadParam, [], [])
  else
    let r := fs.engine.getattr path tag size
    (translateLfsError r.1, r.2, [ECall.getattr path tag])

/-- Modelled from the spec: `checkStat` post-processing (external IFS
library) derives the Compressed flag whenever the compression descriptor
differs from none. -/
def checkStat (s : Stat) : Stat :=
  { s with attr := assignBit s.attr FileAttrBit.compressed (s.compression ≠ 0) }

/-- Stat assembly helper (`fillStat`): entry name without its leading slash,
size, and the Directory attribute bit from the engine entry type, then
`checkStat`. -/
def fillStat (s : Stat) (info : LfsInfo) : Stat :=
  let name := if info.name.startsWith "/" then info.name.drop 1 else info.name
  checkStat
    { s with
      name := name,
      size := info.size,
      attr := assignBit s.attr FileAttrBit.directory info.isDir }

/-- Attribute overlay of `lfs_statcfg` (`StatAttr`): for each of the five
registered reserved tags present on the entry, copy the stored blob over the
prefilled field; a shorter stored blob leaves the remaining prefill bytes in
place. -/
def applyStatAttrs (e : Engine) (path : String) (s : Stat) : Stat :=
  let s1 :=
    match lookupAttr e.attrs path AttributeTag.ModifiedTime with
    | some b => { s with mtime := decodeTime b }
    | none => s
  let s2 :=
    match lookupAttr e.attrs path AttributeTag.FileAttributes with
    | some b => { s1 with attr := b.headD s1.attr }
    | none => s1
  let s3 :=
    match lookupAttr e.attrs path AttributeTag.ReadAce with
    | some b => { s2 with acl := { s2.acl with readAccess := b.headD s2.acl.readAccess } }
    | none => s2
  let s4 :=
    match lookupAttr e.attrs path AttributeTag.WriteAce with
    | some b => { s3 with acl := { s3.acl with writeAccess := b.headD s3.acl.writeAccess } }
    | none => s3
  match lookupAttr e.attrs path AttributeTag.Compression with
  | some b => { s4 with compression := b.headD s4.compression }
  | none => s4

/-- Path stat (`FileSystem::stat`, non-null `Stat*` branch): prefill the ACL
from the cached root ACL, run the engine stat with the attribute overlay,
then assemble the entry status.  `wantStat = false` models the null-pointer
branch (bare existence check). -/
def FileSystem.stat (fs : FileSystem) (path : String) (wantStat : Bool) :
    Int × Option Stat × List ECall :=
  if fs.mounted = false then (Error.NotMounted, none, [])
  else if wantStat = false then
    (translateLfsError (fs.engine.statPath path).1, none, [ECall.stat path])
  else
    let r := fs.engine.statPath path
    if r.1 < 0 then (translateLfsError r.1, none, [ECall.stat path])
    else
      let s0 : Stat := { acl := fs.rootAcl }
      (FS_OK, some (fillStat (applyStatAttrs fs.engine path s0) r.2), [ECall.stat path])

/-- Directory creation (`FileSystem::mkdir`): root path rejected; on actual
creation a fresh modification time is stamped; an engine "already exists"
result is folded into success. -/
def FileSystem.mkdir (fs : FileSystem) (path : String) : FsRes :=
  if fs.mounted = false then (Error.NotMounted, fs, [])
  else if isRootPath path then (Error.BadParam, fs, [])
  else
    let r := fs.engine.mkdir path
    let stamped :=
      if r.1 = LFS_ERR_OK then
        ((r.2.setattr path AttributeTag.ModifiedTime (encodeTime fs.timeNow) 4).2,
          [ECall.mkdir path, ECall.setattr path AttributeTag.ModifiedTime])
      else (r.2, [ECall.mkdir path])
    if r.1 = LFS_ERR_EXIST then (FS_OK, { fs with engine := stamped.1 }, stamped.2)
    else (translateLfsError r.1, { fs with engine := stamped.1 }, stamped.2)

/-- Entry rename (`FileSystem::rename`): the root path may be neither source
nor destination. -/
def FileSystem.rename (fs : FileSystem) (oldpath newpath : String) : FsRes :=
  if fs.mounted = false then (Error.NotMounted, fs, [])
  else if isRootPath oldpath || isRootPath newpath then (Error.BadParam, fs, [])
  else
    let r := fs.engine.rename oldpath newpath
    (translateLfsError r.1, { fs with engine := r.2 }, [ECall.rename oldpath newpath])

/-- Entry removal (`FileSystem::remove`): root path rejected, then the
read-only file-attribute precheck, then the engine remove. -/
def FileSystem.remove (fs : FileSystem) (path : String) : FsRes :=
  if fs.mounted = false then (Error.NotMounted, fs, [])
  else if isRootPath path then (Error.BadParam, fs, [])
  else
    let attr := getAttrByte fs.engine path AttributeTag.FileAttributes 0
    if attr.testBit FileAttrBit.readOnly then
      (Error.ReadOnly, fs, [ECall.getattr path AttributeTag.FileAttributes])
    else
      let r := fs.engine.remove path
      (translateLfsError r.1, { fs with engine := r.2 },
        [ECall.getattr path AttributeTag.FileAttributes, ECall.remove path])

/-- Open-handle removal (`FileSystem::fremove`): the read-only precheck, then
the unimplemented-deletion stub — the engine delete is never invoked. -/
def FileSystem.fremove (fs : FileSystem) (file : Int) : FsRes :=
  match fs.getFd file with
  | Except.error err => (err, fs, [])
  | Except.ok (_, fd) =>
    let attr := getAttrByte fs.engine fd.file AttributeTag.FileAttributes 0
    if attr.testBit FileAttrBit.readOnly then
      (Error.ReadOnly, fs, [ECall.fileGetattr fd.file AttributeTag.FileAttributes])
    else
      (Error.NotImplemented, fs, [ECall.fileGetattr fd.file AttributeTag.FileAttributes])

/-! Helper lemmas. -/

theorem testBit_clearBit (n i j : Nat) :
    (clearBit n i).testBit j = if j = i then false else n.testBit j := by
  unfold clearBit
  by_cases h : n.testBit i
  · rcases eq_or_ne j i with rfl | hj
    · simp [h, Nat.testBit_xor]
    · simp [h, hj, Nat.testBit_xor, Nat.testBit_two_pow_of_ne (Ne.symm hj)]
  · rcases eq_or_ne j i with rfl | hj
    · simp [h]
    · simp [h, hj]

theorem mapOne_flags_testBit (b o : Nat) (s : FlagMapState) (j : Nat) :
    ((mapOne b o s).flags).testBit j = if j = b then false else s.flags.testBit j := by
  unfold mapOne
  by_cases h : s.flags.testBit b
  · simp only [h, if_true, testBit_clearBit]
  · rcases eq_or_ne j b with rfl | hj
    · simp [h]
    · simp [h, hj]

theorem mapFileOpenFlags_rest_testBit (flags j : Nat) :
    ((mapFileOpenFlags flags).1).testBit j = if j < 6 then false else flags.testBit j := by
  show (clearBit _ OpenFlagBit.noFollow).testBit j = _
  rw [testBit_clearBit]
  rw [mapOne_flags_testBit, mapOne_flags_testBit, mapOne_flags_testBit,
    mapOne_flags_testBit, mapOne_flags_testBit]
  simp only [OpenFlagBit.noFollow, OpenFlagBit.write, OpenFlagBit.read, OpenFlagBit.create,
    OpenFlagBit.truncate, OpenFlagBit.append]
  rcases Nat.lt_or_ge j 6 with h6 | h6
  · interval_cases j <;> simp
  · have : ¬j < 6 := Nat.not_lt.mpr h6
    rw [if_neg this, if_neg (by omega), if_neg (by omega), if_neg (by omega),
      if_neg (by omega), if_neg (by omega), if_neg (by omega)]

theorem mapFileOpenFlags_rest_eq_zero (flags : Nat)
    (h : ∀ j, flags.testBit j = true → j < 6) : (mapFileOpenFlags flags).1 = 0 := by
  apply Nat.eq_of_testBit_eq
  intro j
  rw [mapFileOpenFlags_rest_testBit, Nat.zero_testBit]
  by_cases hj : j < 6
  · simp [hj]
  · simp only [hj, if_false]
    by_cases hb : flags.testBit j = true
    · exact absurd (h j hb) hj
    · simpa using hb

theorem mapFileOpenFlags_rest_ne_zero (flags k : Nat)
    (hk : flags.testBit k = true) (h6 : 6 ≤ k) : (mapFileOpenFlags flags).1 ≠ 0 := by
  intro h0
  have := mapFileOpenFlags_rest_testBit flags k
  rw [h0, Nat.zero_testBit, if_neg (Nat.not_lt.mpr h6)] at this
  rw [hk] at this
  simp at this

theorem translateLfsError_neg (err : Int) (h : err < 0) :
    translateLfsError err < 0 := by
  unfold translateLfsError
  split
  · decide
  all_goals split
  · decide
  all_goals split
  · decide
  all_goals split
  · decide
  all_goals split
  · decide
  all_goals split
  · decide
  all_goals split
  · decide
  all_goals split
  · decide
  all_goals split
  · decide
  all_goals (unfold Error.fromSystem Error.SysBase; rw [if_pos h]; omega)

theorem translateLfsError_ne_notSupported (err : Int) (h : err < 0) :
    translateLfsError err ≠ Error.NotSupported := by
  unfold translateLfsError
  split
  · decide
  all_goals split
  · decide
  all_goals split
  · decide
  all_goals split
  · decide
  all_goals split
  · decide
  all_goals split
  · decide
  all_goals split
  · decide
  all_goals split
  · decide
  all_goals split
  · decide
  all_goals (unfold Error.fromSystem Error.NotSupported Error.SysBase; rw [if_pos h]; omega)

theorem findFreeSlot_of_all_isSome (l : List (Option FileDescriptor))
    (h : ∀ x ∈ l, x.isSome = true) : findFreeSlot l = none := by
  induction l with
  | nil => rfl
  | cons a rest ih =>
    match a, h a (List.mem_cons_self a rest) with
    | some fd, _ =>
      show (findFreeSlot rest).map (· + 1) = none
      rw [ih (fun x hx => h x (List.mem_cons_of_mem _ hx))]
      rfl

theorem findFreeSlot_set_none (l : List (Option FileDescriptor)) (i : Nat)
    (hi : i < l.length) (h : ∀ x ∈ l, x.isSome = true) :
    findFreeSlot (l.set i none) = some i := by
  induction l generalizing i with
  | nil => simp at hi
  | cons a rest ih =>
    cases i with
    | zero => rfl
    | succ k =>
      match a, h a (List.mem_cons_self a rest) with
      | some fd, _ =>
        show (findFreeSlot (rest.set k none)).map (· + 1) = some (k + 1)
        rw [ih k (by simpa using hi) (fun x hx => h x (List.mem_cons_of_mem _ hx))]
        rfl

theorem lookupAttr_insert_same (attrs : List ((String × Nat) × List Nat))
    (p : String) (t : Nat) (v : List Nat) :
    lookupAttr (((p, t), v) :: attrs) p t = some v := by
  unfold lookupAttr
  rw [if_pos ⟨rfl, rfl⟩]

theorem lookupAttr_cons (kv : (String × Nat) × List Nat)
    (rest : List ((String × Nat) × List Nat)) (q : String) (u : Nat) :
    lookupAttr (kv :: rest) q u =
      if kv.1.1 = q ∧ kv.1.2 = u then some kv.2 else lookupAttr rest q u := rfl

theorem eraseAttr_lookup_other (attrs : List ((String × Nat) × List Nat))
    (p : String) (t : Nat) (q : String) (u : Nat) (hne : ¬(q = p ∧ u = t)) :
    lookupAttr (eraseAttr attrs p t) q u = lookupAttr attrs q u := by
  induction attrs with
  | nil => rfl
  | cons kv rest ih =>
    unfold eraseAttr
    by_cases hk : kv.1.1 = p ∧ kv.1.2 = t
    · rw [if_pos hk, ih, lookupAttr_cons,
        if_neg (by rintro ⟨h1, h2⟩; exact hne ⟨h1.symm.trans hk.1, h2.symm.trans hk.2⟩)]
    · rw [if_neg hk, lookupAttr_cons, lookupAttr_cons]
      by_cases hq : kv.1.1 = q ∧ kv.1.2 = u
      · rw [if_pos hq, if_pos hq]
      · rw [if_neg hq, if_neg hq, ih]

theorem lookupAttr_setattr_same (e : Engine) (p : String) (t : Nat) (d : List Nat) (size : Nat)
    (he : e.hasEntry p = true) :
    lookupAttr ((e.setattr p t d size).2).attrs p t = some (d.take size) := by
  unfold Engine.setattr
  rw [if_neg (by simp [he])]
  exact lookupAttr_insert_same _ _ _ _

theorem applyStatAttrs_writeAccess (e : Engine) (path : String) (s : Stat) :
    (applyStatAttrs e path s).acl.writeAccess =
      match lookupAttr e.attrs path AttributeTag.WriteAce with
      | some b => b.headD s.acl.writeAccess
      | none => s.acl.writeAccess := by
  unfold applyStatAttrs
  cases lookupAttr e.attrs path AttributeTag.ModifiedTime <;>
    cases lookupAttr e.attrs path AttributeTag.FileAttributes <;>
      cases lookupAttr e.attrs path AttributeTag.ReadAce <;>
        cases lookupAttr e.attrs path AttributeTag.WriteAce <;>
          cases lookupAttr e.attrs path AttributeTag.Compression <;> rfl

theorem fillStat_acl (s : Stat) (info : LfsInfo) : (fillStat s info).acl = s.acl := rfl

/-! Claim theorems. -/

/-- C8: on a mounted filesystem, `mkdir`, `rename` (root as either the old or
the new path) and `remove` with the root path as target return BadParam
regardless of any other state, and issue no engine operation (empty engine
trace, state unchanged). -/
theorem c8_root_target_badparam (fs : FileSystem) (p q : String)
    (hm : fs.mounted = true) (hr : isRootPath p = true) :
    fs.mkdir p = (Error.BadParam, fs, []) ∧
    fs.rename p q = (Error.BadParam, fs, []) ∧
    fs.rename q p = (Error.BadParam, fs, []) ∧
    fs.remove p = (Error.BadParam, fs, []) := by
  unfold FileSystem.mkdir FileSystem.rename FileSystem.remove
  simp [hm, hr]

/-- C8 witness: the concrete root path on a mounted filesystem with an
existing file. -/
theorem c8_root_target_badparam_witness :
    let fs : FileSystem := { mounted := true, engine := { files := ["a.txt"] } }
    fs.mkdir "" = (Error.BadParam, fs, []) ∧
    fs.rename "" "b" = (Error.BadParam, fs, []) ∧
    fs.rename "b" "" = (Error.BadParam, fs, []) ∧
    fs.remove "" = (Error.BadParam, fs, []) :=
  c8_root_target_badparam { mounted := true, engine := { files := ["a.txt"] } } "" "b"
    (by rfl) (by rfl)

/-- C10: a handle whose descriptor lacks the Write flag is rejected with
ReadOnly by `flush` before any metadata flush or engine sync (empty engine
trace, state unchanged), and the same precheck gates `write` and
`ftruncate`. -/
theorem c10_write_gate (fs : FileSystem) (file : Int) (i : Nat) (fd : FileDescriptor) (n : Nat)
    (hfd : fs.getFd file = Except.ok (i, fd)) (hw : fd.write = false) :
    fs.flush file = (Error.ReadOnly, fs, []) ∧
    fs.write file n = (Error.ReadOnly, fs, []) ∧
    fs.ftruncate file n = (Error.ReadOnly, fs, []) := by
  unfold FileSystem.flush FileSystem.write FileSystem.ftruncate
  rw [hfd]
  simp [hw]

/-- C10 witness: a concrete read-only-opened handle. -/
theorem c10_write_gate_witness :
    let fs : FileSystem :=
      { mounted := true,
        engine := { files := ["a.txt"] },
        fileDescriptors := [some { file := "a.txt", write := false }, none, none, none, none] }
    fs.flush 200 = (Error.ReadOnly, fs, []) ∧
    fs.write 200 3 = (Error.ReadOnly, fs, []) ∧
    fs.ftruncate 200 3 = (Error.ReadOnly, fs, []) :=
  c10_write_gate
    { mounted := true,
      engine := { files := ["a.txt"] },
      fileDescriptors := [some { file := "a.txt", write := false }, none, none, none, none] }
    200 0 { file := "a.txt", write := false } 3 (by rfl) (by rfl)

/-- C9: the NoFollow bit is discarded by the flag mapping before the
unrecognised-flag check: the residue never retains the NoFollow bit, a flag
word whose set bits all lie among the six known positions (the five mapped
flags plus NoFollow) maps with zero residue, and `open` on such a flag word
never returns NotSupported. -/
theorem c9_nofollow_ignored (flags : Nat) (h : ∀ j, flags.testBit j = true → j < 6) :
    (∀ f : Nat, ((mapFileOpenFlags f).1).testBit OpenFlagBit.noFollow = false) ∧
    (mapFileOpenFlags flags).1 = 0 ∧
    (∀ (fs : FileSystem) (path : String), (fs.openFile path flags).1 ≠ Error.NotSupported) := by
  refine ⟨fun f => ?_, mapFileOpenFlags_rest_eq_zero flags h, fun fs path => ?_⟩
  · rw [mapFileOpenFlags_rest_testBit]
    simp [OpenFlagBit.noFollow]
  · have hz := mapFileOpenFlags_rest_eq_zero flags h
    unfold FileSystem.openFile
    by_cases hmt : fs.mounted = false
    · rw [if_pos hmt]
      show Error.NotMounted ≠ Error.NotSupported
      decide
    rw [if_neg hmt]
    simp only [hz]
    by_cases hro : (if flags.testBit OpenFlagBit.write = true then
        getAttrByte fs.engine path AttributeTag.FileAttributes 0 else 0).testBit
        FileAttrBit.readOnly = true
    · rw [if_pos hro]
      show Error.ReadOnly ≠ Error.NotSupported
      decide
    rw [if_neg hro, if_neg (by omega)]
    cases hslot : findFreeSlot fs.fileDescriptors with
    | none =>
      show Error.OutOfFileDescs ≠ Error.NotSupported
      decide
    | some i =>
      dsimp only
      by_cases ho : (fs.engine.fileOpen path (mapFileOpenFlags flags).2).1 < 0
      · rw [if_pos ho]
        exact translateLfsError_ne_notSupported _ ho
      · rw [if_neg ho]
        intro hc
        have hc2 : LFS_HANDLE_MIN + Int.ofNat i = Error.NotSupported := hc
        unfold LFS_HANDLE_MIN Error.NotSupported at hc2
        rw [Int.ofNat_eq_coe] at hc2
        omega

/-- C9 witness: read-write-create plus NoFollow maps cleanly and a concrete
open with NoFollow set succeeds rather than failing with NotSupported. -/
theorem c9_nofollow_ignored_witness :
    (∀ f : Nat, ((mapFileOpenFlags f).1).testBit OpenFlagBit.noFollow = false) ∧
    (mapFileOpenFlags 0x2c).1 = 0 ∧
    (∀ (fs : FileSystem) (path : String), (fs.openFile path 0x2c).1 ≠ Error.NotSupported) :=
  c9_nofollow_ignored 0x2c (fun j hj => by
    by_contra h6
    have hlt : (0x2c : Nat) < 2 ^ j :=
      lt_of_lt_of_le (show (0x2c : Nat) < 2 ^ 6 by norm_num)
        (Nat.pow_le_pow_right (by norm_num) (by omega))
    rw [Nat.testBit_eq_false_of_lt hlt] at hj
    exact Bool.noConfusion hj)

/-- C7: on a mounted filesystem, creating a fresh non-root directory succeeds
and stamps a fresh modification-time attribute on it, and a second `mkdir` of
the same now-existing path returns success (FS_OK), not Exists. -/
theorem c7_mkdir_idempotent (fs : FileSystem) (p : String)
    (hm : fs.mounted = true) (hr : isRootPath p = false)
    (hd : p ∉ fs.engine.dirs) (hf : p ∉ fs.engine.files) :
    (fs.mkdir p).1 = FS_OK ∧
    lookupAttr ((fs.mkdir p).2.1).engine.attrs p AttributeTag.ModifiedTime =
      some (encodeTime fs.timeNow) ∧
    (((fs.mkdir p).2.1).mkdir p).1 = FS_OK ∧ FS_OK ≠ Error.Exists := by
  have hr2 : ¬p = "" := by simpa [isRootPath] using hr
  refine ⟨?_, ?_, ?_, by decide⟩ <;>
    simp [FileSystem.mkdir, Engine.mkdir, Engine.setattr, Engine.hasEntry, hm, hr, hr2, hd, hf,
      translateLfsError, Error.fromSystem, FS_OK, LFS_ERR_OK, LFS_ERR_EXIST, LFS_ERR_IO,
      LFS_ERR_CORRUPT, LFS_ERR_NOENT, LFS_ERR_FBIG, LFS_ERR_BADF, LFS_ERR_INVAL, LFS_ERR_NOSPC,
      LFS_ERR_NAMETOOLONG, encodeTime, lookupAttr_cons]

/-- C7 witness: creating a concrete fresh directory twice. -/
theorem c7_mkdir_idempotent_witness :
    let fs : FileSystem := { mounted := true, engine := { files := ["a.txt"] }, timeNow := 99 }
    (fs.mkdir "d").1 = FS_OK ∧
    lookupAttr ((fs.mkdir "d").2.1).engine.attrs "d" AttributeTag.ModifiedTime =
      some (encodeTime 99) ∧
    (((fs.mkdir "d").2.1).mkdir "d").1 = FS_OK ∧ FS_OK ≠ Error.Exists :=
  c7_mkdir_idempotent { mounted := true, engine := { files := ["a.txt"] }, timeNow := 99 } "d"
    (by rfl) (by rfl) (by decide) (by decide)

/-- Concrete state for C1: a mounted filesystem whose root carries a
FileAttributes attribute with the ReadOnly bit set. -/
def c1_fs : FileSystem :=
  { mounted := true,
    engine :=
      { files := ["ro.txt"],
        attrs := [(("", AttributeTag.FileAttributes), [1]),
          (("ro.txt", AttributeTag.FileAttributes), [1])] },
    fileDescriptors := [some { file := "ro.txt", write := true }, none, none, none, none] }

/-- C1 counterexample: on the root path — whose FileAttributes attribute has
the ReadOnly bit set — `remove` returns BadParam, not ReadOnly, because the
root-path guard precedes the read-only check; so the claim as stated fails at
this input. -/
theorem c1_counterexample :
    (getAttrByte c1_fs.engine "" AttributeTag.FileAttributes 0).testBit
      FileAttrBit.readOnly = true ∧
    c1_fs.mounted = true ∧
    (c1_fs.remove "").1 = Error.BadParam ∧ Error.BadParam ≠ Error.ReadOnly := by
  decide

/-- C1 (amended): for every path whose FileAttributes attribute has the
ReadOnly bit set, `open` with the Write flag returns ReadOnly, `remove`
returns ReadOnly provided the path is not the root (the root-path guard fires
first with BadParam), and `fremove` on a handle to it returns ReadOnly; in
each case the only engine call issued is the attribute read — no engine
open-for-write, remove, or delete is invoked and the state is unchanged. -/
theorem c1_readonly_blocks_mutation (fs : FileSystem) (p : String)
    (hm : fs.mounted = true)
    (hro : (getAttrByte fs.engine p AttributeTag.FileAttributes 0).testBit
      FileAttrBit.readOnly = true) :
    (∀ flags : Nat, flags.testBit OpenFlagBit.write = true →
      fs.openFile p flags = (Error.ReadOnly, fs, [ECall.getattr p AttributeTag.FileAttributes])) ∧
    (isRootPath p = false →
      fs.remove p = (Error.ReadOnly, fs, [ECall.getattr p AttributeTag.FileAttributes])) ∧
    (∀ (file : Int) (i : Nat) (fd : FileDescriptor),
      fs.getFd file = Except.ok (i, fd) → fd.file = p →
      fs.fremove file = (Error.ReadOnly, fs, [ECall.fileGetattr p AttributeTag.FileAttributes])) := by
  refine ⟨fun flags hw => ?_, fun hnr => ?_, fun file i fd hfd hfile => ?_⟩
  · simp [FileSystem.openFile, hm, hw, hro]
  · simp [FileSystem.remove, hm, hnr, hro]
  · simp [FileSystem.fremove, hfd, hfile, hro]

/-- C1 witness: the concrete read-only file `ro.txt`, via a write-open, a
path remove and a handle remove. -/
theorem c1_readonly_blocks_mutation_witness :
    c1_fs.openFile "ro.txt" 0x10 =
      (Error.ReadOnly, c1_fs, [ECall.getattr "ro.txt" AttributeTag.FileAttributes]) ∧
    c1_fs.remove "ro.txt" =
      (Error.ReadOnly, c1_fs, [ECall.getattr "ro.txt" AttributeTag.FileAttributes]) ∧
    c1_fs.fremove 200 =
      (Error.ReadOnly, c1_fs, [ECall.fileGetattr "ro.txt" AttributeTag.FileAttributes]) :=
  ⟨(c1_readonly_blocks_mutation c1_fs "ro.txt" (by rfl) (by decide)).1 0x10 (by decide),
    (c1_readonly_blocks_mutation c1_fs "ro.txt" (by rfl) (by decide)).2.1 (by decide),
    (c1_readonly_blocks_mutation c1_fs "ro.txt" (by rfl) (by decide)).2.2 200 0
      { file := "ro.txt", write := true } (by rfl) (by rfl)⟩

/-- Concrete state for C2: a mounted filesystem with a read-only-marked
file. -/
def c2_fs : FileSystem :=
  { mounted := true,
    engine :=
      { files := ["ro.txt", "a.txt"],
        attrs := [(("ro.txt", AttributeTag.FileAttributes), [1])] } }

/-- C2 counterexample: with the Write flag plus an unrecognised bit (bit 6)
on a read-only-marked path, `open` returns ReadOnly — the read-only precheck
fires before the unrecognised-flag check — so "open returns NotSupported for
every flag combination containing an unrecognised bit" fails at this
input. -/
theorem c2_counterexample :
    Nat.testBit 0x50 6 = true ∧ ¬6 < 6 ∧ c2_fs.mounted = true ∧
    (c2_fs.openFile "ro.txt" 0x50).1 = Error.ReadOnly ∧
    Error.ReadOnly ≠ Error.NotSupported := by
  decide

/-- C2 (amended): on a mounted filesystem, `open` with a flag combination
containing an unrecognised bit (any position outside the six known flags)
returns NotSupported — unless the read-only precheck fires first (Write flag
on a read-only-marked path, which returns ReadOnly) — and in either case no
descriptor slot is allocated, the state (hence descriptor-table occupancy) is
unchanged, and no engine open call is made. -/
theorem c2_unknown_flag_notsupported (fs : FileSystem) (path : String) (flags k : Nat)
    (hm : fs.mounted = true) (hk : flags.testBit k = true) (h6 : 6 ≤ k)
    (hro : flags.testBit OpenFlagBit.write = true →
      (getAttrByte fs.engine path AttributeTag.FileAttributes 0).testBit
        FileAttrBit.readOnly = false) :
    (fs.openFile path flags).1 = Error.NotSupported ∧
    (fs.openFile path flags).2.1 = fs ∧
    (∀ q o, ECall.fileOpen q o ∉ (fs.openFile path flags).2.2) := by
  have hz := mapFileOpenFlags_rest_ne_zero flags k hk h6
  by_cases hw : flags.testBit OpenFlagBit.write = true
  · have hro2 := hro hw
    refine ⟨?_, ?_, ?_⟩ <;> simp [FileSystem.openFile, hm, hw, hro2, hz]
  · refine ⟨?_, ?_, ?_⟩ <;> simp [FileSystem.openFile, hm, hw, hz]

/-- C2 witness: Read plus unrecognised bit 6 on an ordinary path. -/
theorem c2_unknown_flag_notsupported_witness :
    (c2_fs.openFile "a.txt" 0x48).1 = Error.NotSupported ∧
    (c2_fs.openFile "a.txt" 0x48).2.1 = c2_fs ∧
    (∀ q o, ECall.fileOpen q o ∉ (c2_fs.openFile "a.txt" 0x48).2.2) :=
  c2_unknown_flag_notsupported c2_fs "a.txt" 0x48 6 (by rfl) (by decide) (by decide)
    (fun hw => by decide)

/-- Concrete state for C5: a mounted filesystem with one ordinary file and an
open write handle on it. -/
def c5_fs : FileSystem :=
  { mounted := true, engine := { files := ["a.txt"] },
    fileDescriptors := [some { file := "a.txt", write := true }, none, none, none, none] }

/-- C5 counterexample: a path-scoped `setxattr` of the one-byte FileAttributes
tag with two bytes succeeds (the engine result is returned), instead of
failing with BadParam as the claim requires for any size differing from the
fixed size. -/
theorem c5_counterexample :
    getAttributeSize AttributeTag.FileAttributes ≠ 0 ∧
    (2 : Nat) ≠ getAttributeSize AttributeTag.FileAttributes ∧
    (c5_fs.setxattr "a.txt" AttributeTag.FileAttributes (some [1, 0]) 2).1 = FS_OK ∧
    FS_OK ≠ Error.BadParam := by
  decide

/-- C5 (amended): `fsetxattr` of a reserved tag with a fixed nonzero size
rejects any size other than that fixed size with BadParam; path-scoped
`setxattr` rejects only undersized writes (`size < fixed`) with BadParam, so
oversized writes pass through to the engine; `getxattr` with an undersized
buffer returns the required size as its result without touching the engine;
and `setxattr` of a user-range tag beyond 255 fails with BadParam.  Each
rejection issues no engine call and leaves the state unchanged. -/
theorem c5_attr_size_checks (fs : FileSystem) (file : Int) (i : Nat) (fd : FileDescriptor)
    (path : String) (tag utag : Nat) (d : List Nat) (size : Nat)
    (hm : fs.mounted = true) :
    (fs.getFd file = Except.ok (i, fd) → fd.write = true →
      getAttributeSize tag ≠ 0 → size ≠ getAttributeSize tag →
      fs.fsetxattr file tag (some d) size = (Error.BadParam, fs, [])) ∧
    (tag < AttributeTag.User → size < getAttributeSize tag →
      fs.setxattr path tag (some d) size = (Error.BadParam, fs, [])) ∧
    (tag < AttributeTag.User → size < getAttributeSize tag →
      fs.getxattr path tag size = (Int.ofNat (getAttributeSize tag), [], [])) ∧
    (¬utag < AttributeTag.User → 255 < utag →
      fs.setxattr path utag (some d) size = (Error.BadParam, fs, [])) := by
  refine ⟨fun hfd hw h1 h2 => ?_, fun ht hlt => ?_, fun ht hlt => ?_, fun hu h255 => ?_⟩
  · simp [FileSystem.fsetxattr, hfd, hw, h1, h2]
  · simp [FileSystem.setxattr, hm, ht, hlt]
  · simp [FileSystem.getxattr, hm, ht, hlt]
  · simp [FileSystem.setxattr, hm, hu, h255, Nat.not_lt.mp hu]

/-- C5 witness: the concrete exact-size, undersize, probe and tag-range
checks. -/
theorem c5_attr_size_checks_witness :
    c5_fs.fsetxattr 200 AttributeTag.FileAttributes (some [1, 0]) 2 =
      (Error.BadParam, c5_fs, []) ∧
    c5_fs.setxattr "a.txt" AttributeTag.Compression (some [0]) 1 =
      (Error.BadParam, c5_fs, []) ∧
    c5_fs.getxattr "a.txt" AttributeTag.Compression 1 = (Int.ofNat 8, [], []) ∧
    c5_fs.setxattr "a.txt" 300 (some [1]) 1 = (Error.BadParam, c5_fs, []) :=
  ⟨(c5_attr_size_checks c5_fs 200 0 { file := "a.txt", write := true } "a.txt"
      AttributeTag.FileAttributes 300 [1, 0] 2 (by rfl)).1 (by rfl) (by rfl) (by decide)
      (by decide),
    (c5_attr_size_checks c5_fs 200 0 { file := "a.txt", write := true } "a.txt"
      AttributeTag.Compression 300 [0] 1 (by rfl)).2.1 (by decide) (by decide),
    (c5_attr_size_checks c5_fs 200 0 { file := "a.txt", write := true } "a.txt"
      AttributeTag.Compression 300 [0] 1 (by rfl)).2.2.1 (by decide) (by decide),
    (c5_attr_size_checks c5_fs 200 0 { file := "a.txt", write := true } "a.txt"
      AttributeTag.Compression 300 [1] 1 (by rfl)).2.2.2 (by decide) (by decide)⟩

/-- C6: on a writable open handle, `fsetxattr` with the ModifiedTime tag
returns success after updating only the cached mtime of that descriptor and
TimeChanged flag — the engine is untouched (same engine state, empty engine
trace); `flushMeta` writes the cached mtime through to the engine attribute
store and clears the flag exactly when TimeChanged is set, and is otherwise a
no-op; and both `close` and `flush` invoke `flushMeta`, their engine traces
beginning with whatever engine write `flushMeta` issued. -/
theorem c6_mtime_cached (fs : FileSystem) (file : Int) (i : Nat) (fd : FileDescriptor)
    (d : List Nat)
    (hfd : fs.getFd file = Except.ok (i, fd)) (hw : fd.write = true) :
    (fs.fsetxattr file AttributeTag.ModifiedTime (some d) 4 =
      (FS_OK,
        { fs with
          fileDescriptors :=
            fs.fileDescriptors.set i
              (some { fd with mtime := decodeTime (d.take 4), timeChanged := true }) },
        [])) ∧
    (∀ (fd2 : FileDescriptor) (e : Engine), fd2.timeChanged = true →
      flushMeta fd2 e =
        ({ fd2 with timeChanged := false },
          (e.setattr fd2.file AttributeTag.ModifiedTime (encodeTime fd2.mtime) 4).2,
          [ECall.fileSetattr fd2.file AttributeTag.ModifiedTime])) ∧
    (∀ (fd2 : FileDescriptor) (e : Engine), fd2.timeChanged = false →
      flushMeta fd2 e = (fd2, e, [])) ∧
    ((fs.close file).2.2 =
      (flushMeta fd fs.engine).2.2 ++ [ECall.fileClose (flushMeta fd fs.engine).1.file]) ∧
    ((fs.flush file).2.2 =
      (flushMeta fd fs.engine).2.2 ++ [ECall.fileSync (flushMeta fd fs.engine).1.file]) := by
  refine ⟨?_, fun fd2 e ht => ?_, fun fd2 e ht => ?_, ?_, ?_⟩
  · simp [FileSystem.fsetxattr, hfd, hw, getAttributeSize, AttributeTag.ModifiedTime,
      AttributeTag.FileAttributes, AttributeTag.ReadAce, AttributeTag.WriteAce,
      AttributeTag.Compression, FS_OK]
  · simp [flushMeta, ht]
  · simp [flushMeta, ht]
  · simp [FileSystem.close, hfd]
  · simp [FileSystem.flush, hfd, hw]

/-- Descriptor and state for the C6 witness. -/
def c6_fd : FileDescriptor := { file := "b.txt", write := true }

def c6_fd_dirty : FileDescriptor := { file := "b.txt", write := true, mtime := 5, timeChanged := true }

def c6_fs : FileSystem :=
  { mounted := true, engine := { files := ["b.txt"] },
    fileDescriptors := [some c6_fd, none, none, none, none] }

/-- C6 witness: a concrete writable handle receiving a cached mtime write,
both flushMeta modes, and the close/flush traces built from flushMeta. -/
theorem c6_mtime_cached_witness :
    (c6_fs.fsetxattr 200 AttributeTag.ModifiedTime (some [5, 0, 0, 0]) 4 =
      (FS_OK,
        { c6_fs with
          fileDescriptors :=
            c6_fs.fileDescriptors.set 0
              (some { c6_fd with mtime := decodeTime ([5, 0, 0, 0].take 4), timeChanged := true }) },
        [])) ∧
    (flushMeta c6_fd_dirty c6_fs.engine =
      ({ c6_fd_dirty with timeChanged := false },
        (c6_fs.engine.setattr c6_fd_dirty.file AttributeTag.ModifiedTime
          (encodeTime c6_fd_dirty.mtime) 4).2,
        [ECall.fileSetattr c6_fd_dirty.file AttributeTag.ModifiedTime])) ∧
    (flushMeta c6_fd c6_fs.engine = (c6_fd, c6_fs.engine, [])) ∧
    ((c6_fs.close 200).2.2 =
      (flushMeta c6_fd c6_fs.engine).2.2 ++ [ECall.fileClose (flushMeta c6_fd c6_fs.engine).1.file]) ∧
    ((c6_fs.flush 200).2.2 =
      (flushMeta c6_fd c6_fs.engine).2.2 ++ [ECall.fileSync (flushMeta c6_fd c6_fs.engine).1.file]) :=
  ⟨(c6_mtime_cached c6_fs 200 0 c6_fd [5, 0, 0, 0] (by rfl) (by rfl)).1,
    (c6_mtime_cached c6_fs 200 0 c6_fd [5, 0, 0, 0] (by rfl) (by rfl)).2.1 c6_fd_dirty
      c6_fs.engine (by rfl),
    (c6_mtime_cached c6_fs 200 0 c6_fd [5, 0, 0, 0] (by rfl) (by rfl)).2.2.1 c6_fd
      c6_fs.engine (by rfl),
    (c6_mtime_cached c6_fs 200 0 c6_fd [5, 0, 0, 0] (by rfl) (by rfl)).2.2.2.1,
    (c6_mtime_cached c6_fs 200 0 c6_fd [5, 0, 0, 0] (by rfl) (by rfl)).2.2.2.2⟩

/-- Concrete state for C4: a mounted filesystem with an ordinary file and a
zeroed root-ACL cache. -/
def c4_fs : FileSystem := { mounted := true, engine := { files := ["a.txt"] } }

/-- C4 counterexample: a successful ACE write addressed at a non-root path
also updates the cached root ACL (the code refreshes the cache on every
successful path-scoped attribute write, with no root check), contradicting
the claim that only root-path writes update it. -/
theorem c4_counterexample :
    isRootPath "a.txt" = false ∧
    c4_fs.rootAcl.writeAccess = 0 ∧
    (c4_fs.setxattr "a.txt" AttributeTag.WriteAce (some [7]) 1).1 = FS_OK ∧
    (c4_fs.setxattr "a.txt" AttributeTag.WriteAce (some [7]) 1).2.1.rootAcl.writeAccess = 7 ∧
    (7 : Nat) ≠ 0 := by
  decide

/-- C4 (amended): the cached root ACL is loaded from the root-path attributes
of the engine on mount; it is updated by every successful path-scoped ACE
write via `setxattr` regardless of the target path — not only root-path
writes (and by `fsetxattr` only on root handles); and a root ACL value set
via `setxattr` on the root path is subsequently visible both through
`getxattr` on the root path and through the acl field of `stat` on the root
path, without remounting. -/
theorem c4_root_acl_cache (fs : FileSystem) (p : String) (v r w : Nat)
    (hm : fs.mounted = true) :
    (∀ fs0 : FileSystem, fs0.engine.mountable = true →
      lookupAttr fs0.engine.attrs "" AttributeTag.ReadAce = some [r] →
      lookupAttr fs0.engine.attrs "" AttributeTag.WriteAce = some [w] →
      (fs0.tryMount.1 = FS_OK ∧
        fs0.tryMount.2.1.rootAcl = { readAccess := r, writeAccess := w } ∧
        fs0.tryMount.2.1.mounted = true)) ∧
    (fs.engine.hasEntry p = true →
      ((fs.setxattr p AttributeTag.WriteAce (some [v]) 1).1 = FS_OK ∧
        (fs.setxattr p AttributeTag.WriteAce (some [v]) 1).2.1.rootAcl.writeAccess = v)) ∧
    ((fs.setxattr "" AttributeTag.WriteAce (some [v]) 1).2.1.getxattr ""
        AttributeTag.WriteAce 1 =
      (Int.ofNat 1, [v], [ECall.getattr "" AttributeTag.WriteAce])) ∧
    ((((fs.setxattr "" AttributeTag.WriteAce (some [v]) 1).2.1.stat "" true).2.1.map
      (fun s => s.acl.writeAccess)) = some v) := by
  have hset : ∀ q : String, fs.engine.hasEntry q = true →
      fs.setxattr q AttributeTag.WriteAce (some [v]) 1 =
        (FS_OK,
          { fs with
            engine :=
              { fs.engine with
                attrs := ((q, AttributeTag.WriteAce), [v]) ::
                  eraseAttr fs.engine.attrs q AttributeTag.WriteAce },
            rootAcl := { fs.rootAcl with writeAccess := v } },
          [ECall.setattr q AttributeTag.WriteAce]) := by
    intro q hq
    simp [FileSystem.setxattr, hm, Engine.setattr, hq, checkRootAcl, AttributeTag.ReadAce,
      AttributeTag.WriteAce, AttributeTag.User, getAttributeSize, AttributeTag.ModifiedTime,
      AttributeTag.FileAttributes, AttributeTag.Compression, translateLfsError,
      Error.fromSystem, FS_OK, LFS_ERR_OK, LFS_ERR_IO, LFS_ERR_CORRUPT, LFS_ERR_NOENT,
      LFS_ERR_EXIST, LFS_ERR_FBIG, LFS_ERR_BADF, LFS_ERR_INVAL, LFS_ERR_NOSPC,
      LFS_ERR_NAMETOOLONG]
  have hroot : fs.engine.hasEntry "" = true := by simp [Engine.hasEntry]
  refine ⟨fun fs0 hmt hra hwa => ?_, fun hq => ?_, ?_, ?_⟩
  · refine ⟨?_, ?_, ?_⟩ <;>
      simp [FileSystem.tryMount, Engine.mount, hmt, getAttrByte, Engine.getattr,
        Engine.hasEntry, hra, hwa, FS_OK, LFS_ERR_OK]
  · rw [hset p hq]
    exact ⟨rfl, rfl⟩
  · rw [hset "" hroot]
    simp [FileSystem.getxattr, hm, AttributeTag.WriteAce, AttributeTag.User, getAttributeSize,
      AttributeTag.ModifiedTime, AttributeTag.FileAttributes, AttributeTag.ReadAce,
      AttributeTag.Compression, Engine.getattr, Engine.hasEntry,
      lookupAttr_insert_same, translateLfsError, Error.fromSystem, LFS_ERR_OK, LFS_ERR_IO,
      LFS_ERR_CORRUPT, LFS_ERR_NOENT, LFS_ERR_EXIST, LFS_ERR_FBIG, LFS_ERR_BADF, LFS_ERR_INVAL,
      LFS_ERR_NOSPC, LFS_ERR_NAMETOOLONG]
  · rw [hset "" hroot]
    unfold FileSystem.stat
    rw [if_neg (by simp [hm]), if_neg (by simp)]
    have hstat : (({ fs.engine with
        attrs := (("", AttributeTag.WriteAce), [v]) ::
          eraseAttr fs.engine.attrs "" AttributeTag.WriteAce } : Engine).statPath "") =
        (LFS_ERR_OK, { name := "/", size := 0, isDir := true }) := by
      unfold Engine.statPath
      rw [if_pos rfl]
    rw [hstat]
    rw [if_neg (by unfold LFS_ERR_OK; omega)]
    simp only [Option.map_some']
    rw [fillStat_acl, applyStatAttrs_writeAccess, lookupAttr_insert_same]
    rfl


/-- Premount state for the C4 witness: an unmounted filesystem whose engine
already stores root ACE attributes. -/
def c4_premount : FileSystem :=
  { engine :=
      { mountable := true,
        attrs := [(("", AttributeTag.ReadAce), [2]), (("", AttributeTag.WriteAce), [4])] } }

/-- C4 witness: concrete mount-time ACL load, cache update by an ACE write on
a non-root path, and root-write visibility through getxattr and stat. -/
theorem c4_root_acl_cache_witness :
    (c4_premount.tryMount.1 = FS_OK ∧
      c4_premount.tryMount.2.1.rootAcl = { readAccess := 2, writeAccess := 4 } ∧
      c4_premount.tryMount.2.1.mounted = true) ∧
    ((c4_fs.setxattr "a.txt" AttributeTag.WriteAce (some [3]) 1).1 = FS_OK ∧
      (c4_fs.setxattr "a.txt" AttributeTag.WriteAce (some [3]) 1).2.1.rootAcl.writeAccess = 3) ∧
    ((c4_fs.setxattr "" AttributeTag.WriteAce (some [3]) 1).2.1.getxattr ""
        AttributeTag.WriteAce 1 =
      (Int.ofNat 1, [3], [ECall.getattr "" AttributeTag.WriteAce])) ∧
    ((((c4_fs.setxattr "" AttributeTag.WriteAce (some [3]) 1).2.1.stat "" true).2.1.map
      (fun s => s.acl.writeAccess)) = some 3) :=
  ⟨(c4_root_acl_cache c4_fs "a.txt" 3 2 4 (by rfl)).1 c4_premount (by rfl) (by decide)
      (by decide),
    (c4_root_acl_cache c4_fs "a.txt" 3 2 4 (by rfl)).2.1 (by decide),
    (c4_root_acl_cache c4_fs "a.txt" 3 2 4 (by rfl)).2.2.1,
    (c4_root_acl_cache c4_fs "a.txt" 3 2 4 (by rfl)).2.2.2⟩


theorem setattr_files (e : Engine) (p : String) (t : Nat) (d : List Nat) (n : Nat) :
    ((e.setattr p t d n).2).files = e.files := by
  unfold Engine.setattr
  split <;> rfl

theorem flushMeta_engine_files (fd : FileDescriptor) (e : Engine) :
    ((flushMeta fd e).2.1).files = e.files := by
  by_cases ht : fd.timeChanged <;> simp [flushMeta, ht, setattr_files]

/-- C3: with every one of the LFS_MAX_FDS descriptor slots occupied, an
otherwise-valid open returns OutOfFileDescs without opening an engine file
and leaves the state unchanged; after closing any open handle, a subsequent
open of an existing file succeeds, reusing exactly the freed slot. -/
theorem c3_fd_capacity (fs : FileSystem) (path path2 : String) (flags : Nat) (i : Nat)
    (fd : FileDescriptor)
    (hm : fs.mounted = true)
    (hlen : fs.fileDescriptors.length = LFS_MAX_FDS)
    (hfull : ∀ x ∈ fs.fileDescriptors, x.isSome = true)
    (hro : flags.testBit OpenFlagBit.write = true →
      (getAttrByte fs.engine path AttributeTag.FileAttributes 0).testBit
        FileAttrBit.readOnly = false)
    (hrec : ∀ j, flags.testBit j = true → j < 6)
    (hi : i < LFS_MAX_FDS)
    (hslot : fs.fileDescriptors.getD i none = some fd)
    (hp2 : fs.engine.files.contains path2 = true) :
    ((fs.openFile path flags).1 = Error.OutOfFileDescs ∧
      (fs.openFile path flags).2.1 = fs ∧
      (∀ q o, ECall.fileOpen q o ∉ (fs.openFile path flags).2.2)) ∧
    ((fs.close (LFS_HANDLE_MIN + (i : Int))).1 = FS_OK ∧
      ((fs.close (LFS_HANDLE_MIN + (i : Int))).2.1.openFile path2
        (2 ^ OpenFlagBit.read)).1 = LFS_HANDLE_MIN + (i : Int)) := by
  have hz := mapFileOpenFlags_rest_eq_zero flags hrec
  have hfind := findFreeSlot_of_all_isSome fs.fileDescriptors hfull
  have hopen : fs.openFile path flags =
      (Error.OutOfFileDescs, fs,
        if flags.testBit OpenFlagBit.write = true then
          [ECall.getattr path AttributeTag.FileAttributes] else []) := by
    by_cases hw : flags.testBit OpenFlagBit.write = true
    · simp [FileSystem.openFile, hm, hw, hro hw, hz, hfind]
    · simp [FileSystem.openFile, hm, hw, hz, hfind]
  have hget : fs.getFd (LFS_HANDLE_MIN + (i : Int)) = Except.ok (i, fd) := by
    unfold FileSystem.getFd
    rw [if_neg (by simp [hm])]
    rw [if_neg ?hb]
    case hb =>
      simp only [LFS_HANDLE_MIN, LFS_HANDLE_MAX, LFS_MAX_FDS, Int.ofNat_eq_coe]
      simp only [LFS_MAX_FDS] at hi
      rintro (h1 | h2) <;> omega
    have hidx : (LFS_HANDLE_MIN + (i : Int) - LFS_HANDLE_MIN).toNat = i := by
      simp only [LFS_HANDLE_MIN]
      omega
    rw [hidx, hslot]
  have hclose : fs.close (LFS_HANDLE_MIN + (i : Int)) =
      (FS_OK,
        { fs with
          engine := (flushMeta fd fs.engine).2.1,
          fileDescriptors := fs.fileDescriptors.set i none },
        (flushMeta fd fs.engine).2.2 ++ [ECall.fileClose (flushMeta fd fs.engine).1.file]) := by
    simp [FileSystem.close, hget, Engine.fileClose, translateLfsError, Error.fromSystem,
      FS_OK, LFS_ERR_OK, LFS_ERR_IO, LFS_ERR_CORRUPT, LFS_ERR_NOENT, LFS_ERR_EXIST,
      LFS_ERR_FBIG, LFS_ERR_BADF, LFS_ERR_INVAL, LFS_ERR_NOSPC, LFS_ERR_NAMETOOLONG]
  have hmap : (mapFileOpenFlags (2 ^ OpenFlagBit.read)).1 = 0 := by decide
  have hw2 : (2 ^ OpenFlagBit.read).testBit OpenFlagBit.write = false := by decide
  have hfind2 : findFreeSlot (fs.fileDescriptors.set i none) = some i :=
    findFreeSlot_set_none fs.fileDescriptors i (by rw [hlen]; exact hi) hfull
  have hfiles2 : path2 ∈ ((flushMeta fd fs.engine).2.1).files := by
    rw [flushMeta_engine_files]
    simpa using hp2
  have hopen2 : (({ fs with
      engine := (flushMeta fd fs.engine).2.1,
      fileDescriptors := fs.fileDescriptors.set i none } : FileSystem).openFile path2
      (2 ^ OpenFlagBit.read)).1 = LFS_HANDLE_MIN + (i : Int) := by
    simp [FileSystem.openFile, hm, hw2, Engine.fileOpen, hfiles2, hmap, hfind2, LFS_ERR_OK,
      Nat.zero_testBit]
  refine ⟨⟨by rw [hopen], by rw [hopen], ?_⟩, by rw [hclose], by rw [hclose]; exact hopen2⟩
  intro q o
  rw [hopen]
  by_cases hw : flags.testBit OpenFlagBit.write = true <;> simp [hw]

/-- Descriptor and state for the C3 witness: all five slots occupied. -/
def c3_fd : FileDescriptor := { file := "f0", write := false }

def c3_fs : FileSystem :=
  { mounted := true, engine := { files := ["f0", "g.txt"] },
    fileDescriptors := [some c3_fd, some c3_fd, some c3_fd, some c3_fd, some c3_fd] }

/-- C3 witness: the sixth open fails with OutOfFileDescs, and after closing
handle 202, reopening succeeds with the same handle. -/
theorem c3_fd_capacity_witness :
    ((c3_fs.openFile "g.txt" 8).1 = Error.OutOfFileDescs ∧
      (c3_fs.openFile "g.txt" 8).2.1 = c3_fs ∧
      (∀ q o, ECall.fileOpen q o ∉ (c3_fs.openFile "g.txt" 8).2.2)) ∧
    ((c3_fs.close (LFS_HANDLE_MIN + ((2 : Nat) : Int))).1 = FS_OK ∧
      ((c3_fs.close (LFS_HANDLE_MIN + ((2 : Nat) : Int))).2.1.openFile "g.txt"
        (2 ^ OpenFlagBit.read)).1 = LFS_HANDLE_MIN + ((2 : Nat) : Int)) :=
  c3_fd_capacity c3_fs "g.txt" "g.txt" 8 2 c3_fd (by rfl) (by rfl) (by decide)
    (fun hw => absurd hw (by decide))
    (fun j hj => by
      by_contra h6
      have hlt : (8 : Nat) < 2 ^ j :=
        lt_of_lt_of_le (show (8 : Nat) < 2 ^ 6 by norm_num)
          (Nat.pow_le_pow_right (by norm_num) (by omega))
      rw [Nat.testBit_eq_false_of_lt hlt] at hj
      exact Bool.noConfusion hj)
    (by decide) (by rfl) (by decide)


end LittleFS
end IFS
